import Mathlib

/-!
Shallow embedding of the vectorized CSV type-inference and cell-level
validation engine of this repository (app/csv_validator.py and
app/csv_analyzer.py).

Modelling conventions:
* A dataframe is a list of named columns; a cell of a string-storage
  (Utf8) column is an Option String (none models a null entry).  The
  claims under scrutiny all concern string-storage columns, which is the
  domain on which validate_dataframe returns a report (its missing-value
  mask applies a string strip to the column).
* Engine-level exceptions raised by a vectorized cast/regex step are
  external nondeterminism of the columnar engine, not a function of the
  data; they are modelled by an explicit oracle (column name to optional
  raised cause), mirroring the per-column result type the design notes
  call for.  The no-failure oracle recovers normal execution.
* Python float literals 0.6, 0.8 and 0.1 are modelled as the exact
  rationals they denote; a threshold comparison such as
  date_matches >= len(sample) * 0.6 is written with both sides scaled by
  ten (10 * date_matches >= len(sample) * 6), an exact rearrangement.
  The engine's numeric and date casts are modelled by executable string
  predicates following the Rust parsers polars uses.
-/

namespace CsvEngine

/-- A cell of a string-storage column: none models a null entry. -/
abbrev Cell := Option String

/-- A named column of cells, as iterated by validate_dataframe. -/
structure Column where
  name : String
  cells : List Cell
deriving Repr, DecidableEq

/-- A dataframe: ordered list of named columns. -/
abbrev DataFrame := List Column

/-- The expected_types mapping (a Python dict with unique keys), in
insertion order. -/
abbrev ExpectedTypes := List (String × String)

/-- Dict lookup on expected_types. -/
def lookupType (et : ExpectedTypes) (c : String) : Option String :=
  match et with
  | [] => none
  | (k, v) :: rest => if k = c then some v else lookupType rest c

/-- Number of rows of the dataframe (polars len(df)); columns of a polars
frame share one height. -/
def dfHeight (df : DataFrame) : Nat :=
  match df with
  | [] => 0
  | c :: _ => c.cells.length

/-- Pair each element with its 0-based position starting from n
(the positions a polars mask's arg_true and arg_false report, ascending). -/
def enumFrom {α : Type} : Nat → List α → List (Nat × α)
  | _, [] => []
  | n, x :: xs => (n, x) :: enumFrom (n + 1) xs

/-- Strip leading and trailing whitespace, as Series.str.strip does. -/
def trimChars (l : List Char) : List Char :=
  ((l.dropWhile Char.isWhitespace).reverse.dropWhile Char.isWhitespace).reverse

/-- Missing-value mask of one cell: null, or empty after stripping
whitespace (col_series.is_null() | (col_series.str.strip() == "")). -/
def isMissingCell (c : Cell) : Bool :=
  match c with
  | none => true
  | some s => trimChars s.toList == []

/-- Strip the formatting characters the validator removes before numeric
casts (str.replace_all(",", "").str.replace_all(" ", "")). -/
def stripFormatting (s : String) : String :=
  String.mk (s.toList.filter (fun c => !(c == ',' || c == ' ')))

/-- Drop one leading sign character, as the Rust numeric parsers do. -/
def dropSignChar : List Char → List Char
  | [] => []
  | c :: rest => if c = '+' ∨ c = '-' then rest else c :: rest

/-- The cleaned string casts non-strictly to Int64: optional sign then at
least one decimal digit. -/
def isIntChars (l : List Char) : Bool :=
  let l := dropSignChar l
  !l.isEmpty && l.all Char.isDigit

/-- Exponent tail of a float literal: empty, or e/E, optional sign, then
at least one digit. -/
def floatExpTail : List Char → Bool
  | [] => true
  | c :: rest =>
    if c = 'e' ∨ c = 'E' then
      let rest := dropSignChar rest
      !rest.isEmpty && rest.all Char.isDigit
    else false

/-- The string casts non-strictly to Float64 (Rust f64 parsing): optional
sign; then inf/infinity/nan (case-insensitive) or a decimal mantissa with
optional fraction and exponent. -/
def isFloatChars (l : List Char) : Bool :=
  let l := dropSignChar l
  let lowered := l.map Char.toLower
  if lowered = "inf".toList ∨ lowered = "infinity".toList ∨ lowered = "nan".toList then
    true
  else
    let intPart := l.takeWhile Char.isDigit
    let rest := l.dropWhile Char.isDigit
    match rest with
    | [] => !intPart.isEmpty
    | '.' :: rest2 =>
      let frac := rest2.takeWhile Char.isDigit
      let rest3 := rest2.dropWhile Char.isDigit
      (!intPart.isEmpty || !frac.isEmpty) && floatExpTail rest3
    | _ => !intPart.isEmpty && floatExpTail rest

/-- Date pattern YYYY-MM-DD (regex \d{4}-\d{2}-\d{2} anchored). -/
def datePatYmdDash : List Char → Bool
  | [a, b, c, d, '-', e, f, '-', g, h] => [a, b, c, d, e, f, g, h].all Char.isDigit
  | _ => false

/-- Date pattern MM/DD/YYYY (regex \d{2}/\d{2}/\d{4} anchored). -/
def datePatMdySlash : List Char → Bool
  | [a, b, '/', c, d, '/', e, f, g, h] => [a, b, c, d, e, f, g, h].all Char.isDigit
  | _ => false

/-- Date pattern MM-DD-YYYY (regex \d{2}-\d{2}-\d{4} anchored). -/
def datePatMdyDash : List Char → Bool
  | [a, b, '-', c, d, '-', e, f, g, h] => [a, b, c, d, e, f, g, h].all Char.isDigit
  | _ => false

/-- Date pattern YYYY/MM/DD (regex \d{4}/\d{2}/\d{2} anchored). -/
def datePatYmdSlash : List Char → Bool
  | [a, b, c, d, '/', e, f, '/', g, h] => [a, b, c, d, e, f, g, h].all Char.isDigit
  | _ => false

/-- Membership in the combined date regular expression: the four anchored
patterns joined by alternation, tested with str.contains. -/
def isDateString (s : String) : Bool :=
  let l := s.toList
  datePatYmdDash l || datePatMdySlash l || datePatMdyDash l || datePatYmdSlash l

/-- Lowercase a string characterwise (Series.str.to_lowercase). -/
def lowerString (s : String) : String :=
  String.mk (s.toList.map Char.toLower)

/-- Accepted boolean forms (case-insensitive). -/
def validBools : List String :=
  ["true", "false", "1", "0", "yes", "no", "y", "n"]

/-- Digits of a numeral as a Nat. -/
def toNatDigits (l : List Char) : Nat :=
  l.foldl (fun n c => n * 10 + (c.toNat - 48)) 0

/-- Days in a month under the Gregorian leap rule (chrono's calendar). -/
def daysInMonth (y m : Nat) : Nat :=
  if m = 2 then
    if (y % 4 = 0 ∧ y % 100 ≠ 0) ∨ y % 400 = 0 then 29 else 28
  else if m = 4 ∨ m = 6 ∨ m = 9 ∨ m = 11 then 30
  else 31

/-- The string parses with strptime format %Y-%m-%d: four-digit year,
two-digit month and day, and a calendar-valid date. -/
def parsesYmdDate (s : String) : Bool :=
  match s.toList with
  | [y1, y2, y3, y4, '-', m1, m2, '-', d1, d2] =>
    if [y1, y2, y3, y4, m1, m2, d1, d2].all Char.isDigit then
      let y := toNatDigits [y1, y2, y3, y4]
      let m := toNatDigits [m1, m2]
      let d := toNatDigits [d1, d2]
      decide (1 ≤ m ∧ m ≤ 12 ∧ 1 ≤ d ∧ d ≤ daysInMonth y m)
    else false
  | _ => false

/-- One reported invalid or missing cell. -/
structure ViolationRecord where
  row : Nat
  column : String
  value : String
  error : String
deriving Repr, DecidableEq

/-- Type-specific invalidity of one non-missing string cell, following the
dispatch chain of _validate_type_vectorized; text, categorical and any
unrecognized type produce no violations. -/
def cellTypeInvalid (t : String) (s : String) : Bool :=
  if t = "integer" then !isIntChars (stripFormatting s).toList
  else if t = "float" then !isFloatChars (stripFormatting s).toList
  else if t = "boolean" then !validBools.contains (lowerString s)
  else if t = "date_string" then !isDateString s
  else if t = "numeric_string" then !isFloatChars (stripFormatting s).toList
  else if t = "datetime" then !parsesYmdDate s
  else false

/-- Diagnostic message of each type-specific validator. -/
def typeErrorMessage (t : String) : String :=
  if t = "integer" then "Expected integer"
  else if t = "float" then "Expected number"
  else if t = "boolean" then "Expected boolean (true/false, 1/0, yes/no)"
  else if t = "date_string" then "Invalid date format (expected YYYY-MM-DD, MM/DD/YYYY, etc.)"
  else if t = "numeric_string" then "Expected number"
  else if t = "datetime" then "Expected datetime"
  else ""

/-- MissingValue records of one column: positions where the missing mask
is true, in ascending order (arg_true), rendered with empty value and +2
row offset. -/
def missingRecords (col : Column) : List ViolationRecord :=
  ((enumFrom 0 col.cells).filter (fun p => isMissingCell p.2)).map
    (fun p => ⟨p.1 + 2, col.name, "", "Missing value"⟩)

/-- The non-missing entries of a column with their original 0-based
positions (col_series.filter(~missing_mask) zipped with arg_false). -/
def nonMissingPairs (cells : List Cell) : List (Nat × String) :=
  (enumFrom 0 cells).filterMap (fun p =>
    match p.2 with
    | none => none
    | some s => if isMissingCell (some s) then none else some (p.1, s))

/-- Type-violation records among the non-missing entries: positions where
the type-specific invalid mask is true, ascending, with +2 row offset. -/
def validateType (t : String) (pairs : List (Nat × String)) (colName : String) :
    List ViolationRecord :=
  (pairs.filter (fun p => cellTypeInvalid t p.2)).map
    (fun p => ⟨p.1 + 2, colName, p.2, typeErrorMessage t⟩)

/-- Validation of one column: MissingValue records first, then the
type-specific pass over non-missing entries.  engineFailure models an
exception escaping the type dispatch for this column: each non-missing
cell is then marked with the generic "Validation error: cause" message. -/
def validateColumnWith (engineFailure : Option String) (col : Column) (t : String) :
    List ViolationRecord :=
  missingRecords col ++
    match engineFailure with
    | some cause =>
      (nonMissingPairs col.cells).map
        (fun p => ⟨p.1 + 2, col.name, p.2, "Validation error: " ++ cause⟩)
    | none => validateType t (nonMissingPairs col.cells) col.name

/-- Type inference for a string-storage column
(_infer_string_type_vectorized): drop nulls; empty gives text; sample the
first 1000 non-null values; 60 percent date-pattern matches give
date_string; else 80 percent successful numeric casts after formatting
removal give numeric_string; else text. -/
def inferStringTypeVectorized (cells : List Cell) : String :=
  let nonNull := cells.filterMap id
  if nonNull.isEmpty then "text"
  else
    let sample := nonNull.take 1000
    let dateMatches := (sample.filter isDateString).length
    if 10 * dateMatches ≥ sample.length * 6 then "date_string"
    else
      let cleaned := sample.map stripFormatting
      let numericOk := (cleaned.filter (fun s => isFloatChars s.toList)).length
      if 10 * numericOk ≥ sample.length * 8 then "numeric_string"
      else "text"

/-- Inferred expected_types of a whole dataframe of string-storage
columns (_infer_column_types_vectorized restricted to the Utf8 branch). -/
def inferColumnTypesVectorized (df : DataFrame) : ExpectedTypes :=
  df.map (fun c => (c.name, inferStringTypeVectorized c.cells))

/-- First occurrences of the elements of a list, in encounter order: the
iteration order of a Python Counter built from the list. -/
def firstOccs {α : Type} [DecidableEq α] : List α → List α
  | [] => []
  | x :: xs => x :: (firstOccs xs).filter (fun y => y ≠ x)

/-- Multiplicity of a key in a list. -/
def countOcc (l : List String) (k : String) : Nat :=
  (l.filter (fun y => y = k)).length

/-- Frequency table of a list of strings, keys in first-encounter order:
a Python Counter's items. -/
def freqTable (l : List String) : List (String × Nat) :=
  (firstOccs l).map (fun k => (k, countOcc l k))

/-- Sum of the counts of a frequency table. -/
def sumCounts (tbl : List (String × Nat)) : Nat :=
  (tbl.map Prod.snd).sum

/-- The entry Counter.most_common(1) returns: maximal count, earliest
entry winning ties (heapq.nlargest keeps the first of equals). -/
def argmaxFirst : List (String × Nat) → Option (String × Nat)
  | [] => none
  | p :: rest =>
    match argmaxFirst rest with
    | none => some p
    | some q => some (if p.2 < q.2 then q else p)

/-- Summary block of a validation report (_generate_validation_summary). -/
inductive ValidationSummary where
  | valid (message : String)
  | invalid (total_errors : Nat) (error_types : List (String × Nat))
      (columns_with_errors : List (String × Nat)) (most_common_error : Option String)
deriving Repr, DecidableEq

/-- Build the summary: a status-valid message when no cells are invalid,
otherwise frequency tables by error kind and by column plus the most
common error. -/
def generateValidationSummary (invalidCells : List ViolationRecord) : ValidationSummary :=
  if invalidCells.isEmpty then
    .valid "No validation errors found"
  else
    let errorCounts := freqTable (invalidCells.map (fun c => c.error))
    let columnCounts := freqTable (invalidCells.map (fun c => c.column))
    .invalid invalidCells.length errorCounts columnCounts
      ((argmaxFirst errorCounts).map Prod.fst)

/-- The per-kind error table of a summary; empty for a valid summary. -/
def summaryErrorTypes : ValidationSummary → List (String × Nat)
  | .valid _ => []
  | .invalid _ e _ _ => e

/-- The report validate_dataframe returns. -/
structure ValidationReport where
  total_rows : Nat
  total_columns : Nat
  invalid_count : Nat
  invalid_cells : List ViolationRecord
  validation_summary : ValidationSummary
deriving Repr, DecidableEq

/-- validate_dataframe under an engine-failure oracle: infer types when
none are supplied, validate each column whose name the expected_types
mapping contains (others are skipped), concatenate in column order. -/
def validateDataframeWith (engineFailure : String → Option String) (df : DataFrame)
    (expectedTypes : Option ExpectedTypes) : ValidationReport :=
  let et := match expectedTypes with
    | some e => e
    | none => inferColumnTypesVectorized df
  let allInvalid := df.flatMap (fun col =>
    match lookupType et col.name with
    | none => []
    | some t => validateColumnWith (engineFailure col.name) col t)
  { total_rows := dfHeight df
    total_columns := df.length
    invalid_count := allInvalid.length
    invalid_cells := allInvalid
    validation_summary := generateValidationSummary allInvalid }

/-- validate_dataframe in normal execution (no engine failure). -/
def validate_dataframe (df : DataFrame) (expectedTypes : Option ExpectedTypes) :
    ValidationReport :=
  validateDataframeWith (fun _ => none) df expectedTypes

/-- Result of validate_csv_file: a report, or the error value built when
reading the CSV raises. -/
inductive FileValidationResult where
  | report (file_path : String) (r : ValidationReport)
  | readError (file_path : String) (error : String)
deriving Repr, DecidableEq

/-- validate_csv_file: parsing the file is modelled by its result, an
Except value; on success the dataframe is validated, on failure the
"Failed to read CSV" error entry is returned. -/
def validate_csv_file (file_path : String) (parsed : Except String DataFrame)
    (expectedTypes : Option ExpectedTypes) : FileValidationResult :=
  match parsed with
  | .ok df => .report file_path (validate_dataframe df expectedTypes)
  | .error e => .readError file_path ("Failed to read CSV: " ++ e)

/-- Last path component, as os.path.basename on a slash-separated path:
the characters after the last slash. -/
def basename (p : String) : String :=
  String.mk (p.toList.foldl (fun acc c => if c = '/' then [] else acc ++ [c]) [])

/-- What one successful pl.read_csv(path, n_rows=1000) plus the auxiliary
file reads yield: the bounded sample dataframe (at most the first 1000
data rows), the physical line count of the file, and its byte size. -/
structure ParsedCsv where
  sampleDf : DataFrame
  lineCount : Nat
  fileSize : Nat
deriving Repr, DecidableEq

/-- Number of distinct values of a column sample, a null entry counting
as one value (polars Series.n_unique). -/
def nUnique (cells : List Cell) : Nat :=
  (firstOccs cells).length

/-- Type detection of analyze_csv_metadata for a string-storage (Utf8)
column: categorical when unique_count / len(col_data) < 0.1 and
unique_count < 50, else text.  The denominator is the full sample length,
nulls included; the quotient comparison is written with both sides scaled
by the denominator (its zero-denominator case is guarded at the caller,
where Python raises). -/
def analyzerInferStringType (cells : List Cell) : String :=
  let u := nUnique cells
  if 10 * u < cells.length ∧ u < 50 then "categorical" else "text"

/-- Metadata entry of one successfully parsed file.  The derived
megabyte rendering of the file size (pure presentation, floating point)
is not modelled. -/
structure FileMetadata where
  filename : String
  full_path : String
  rows : Int
  columns : List String
  file_size_bytes : Nat
  inferred_types : List (String × String)
  missing_values : List (String × Nat)
  sample_data : List (String × List String)
deriving Repr, DecidableEq

/-- Build the metadata of one parsed file: row estimate is line count
minus the header, per-column null counts, first five non-null sample
values, and the analyzer's inferred types. -/
def fileMetadataOf (path : String) (f : ParsedCsv) : FileMetadata :=
  { filename := basename path
    full_path := path
    rows := (f.lineCount : Int) - 1
    columns := f.sampleDf.map (fun c => c.name)
    file_size_bytes := f.fileSize
    inferred_types := f.sampleDf.map (fun c => (c.name, analyzerInferStringType c.cells))
    missing_values := f.sampleDf.map (fun c => (c.name, (c.cells.filter (fun x => x.isNone)).length))
    sample_data := f.sampleDf.map (fun c => (c.name, (c.cells.filterMap id).take 5)) }

/-- One entry of the analyze_csv_metadata output: full metadata on
success, or the captured error entry (filename, path, message). -/
inductive MetadataEntry where
  | ok (m : FileMetadata)
  | err (filename : String) (full_path : String) (message : String)
deriving Repr, DecidableEq

/-- analyze_csv_metadata over a batch of paths; reading and parsing one
file is modelled by the oracle readCsv.  A parsed sample with columns but
zero rows makes the cardinality quotient divide by zero, which the
per-file handler captures like any other per-file exception. -/
def analyze_csv_metadata (readCsv : String → Except String ParsedCsv)
    (paths : List String) : List MetadataEntry :=
  paths.map (fun p =>
    match readCsv p with
    | .ok f =>
      if f.sampleDf ≠ [] ∧ dfHeight f.sampleDf = 0 then
        .err (basename p) p "division by zero"
      else
        .ok (fileMetadataOf p f)
    | .error e => .err (basename p) p e)

/-! Helper lemmas about positions (enumFrom), the per-column record
builders, and the frequency tables. -/

theorem mem_enumFrom {α : Type} {l : List α} :
    ∀ {n : Nat} {p : Nat × α}, p ∈ enumFrom n l → n ≤ p.1 ∧ l[p.1 - n]? = some p.2 := by
  induction l with
  | nil => intro n p h; simp [enumFrom] at h
  | cons x xs ih =>
    intro n p h
    simp only [enumFrom, List.mem_cons] at h
    rcases h with rfl | h
    · simp
    · obtain ⟨h1, h2⟩ := ih h
      refine ⟨by omega, ?_⟩
      have hx : p.1 - n = (p.1 - (n + 1)) + 1 := by omega
      rw [hx, List.getElem?_cons_succ]
      exact h2

theorem enumFrom_mem {α : Type} {l : List α} :
    ∀ {n i : Nat} {c : α}, l[i]? = some c → (n + i, c) ∈ enumFrom n l := by
  induction l with
  | nil => intro n i c h; simp at h
  | cons x xs ih =>
    intro n i c h
    cases i with
    | zero =>
      simp only [List.getElem?_cons_zero, Option.some.injEq] at h
      subst h
      simp [enumFrom]
    | succ j =>
      rw [List.getElem?_cons_succ] at h
      have hmem := ih (n := n + 1) h
      have hx : n + (j + 1) = (n + 1) + j := by omega
      rw [hx]
      exact List.mem_cons_of_mem _ hmem

theorem pairwise_enumFrom {α : Type} (l : List α) :
    ∀ n, (enumFrom n l).Pairwise (fun a b => a.1 < b.1) := by
  induction l with
  | nil => intro n; simp [enumFrom]
  | cons x xs ih =>
    intro n
    rw [enumFrom, List.pairwise_cons]
    refine ⟨fun q hq => ?_, ih (n + 1)⟩
    have := (mem_enumFrom hq).1
    simp only
    omega

theorem mem_nonMissingPairs {cells : List Cell} {q : Nat × String}
    (h : q ∈ nonMissingPairs cells) :
    cells[q.1]? = some (some q.2) ∧ isMissingCell (some q.2) = false := by
  rw [nonMissingPairs, List.mem_filterMap] at h
  obtain ⟨p, hp, hg⟩ := h
  match hc : p.2 with
  | none => rw [hc] at hg; simp at hg
  | some s =>
    rw [hc] at hg
    by_cases hm : isMissingCell (some s) = true
    · simp [hm] at hg
    · simp only [Bool.not_eq_true] at hm
      simp only [hm, Bool.false_eq_true, if_false, Option.some.injEq] at hg
      have hidx := (mem_enumFrom hp).2
      simp only [Nat.sub_zero] at hidx
      rw [hc] at hidx
      subst hg
      exact ⟨hidx, hm⟩

theorem nonMissingPairs_mem {cells : List Cell} {i : Nat} {s : String}
    (h1 : cells[i]? = some (some s)) (h2 : isMissingCell (some s) = false) :
    (i, s) ∈ nonMissingPairs cells := by
  rw [nonMissingPairs, List.mem_filterMap]
  refine ⟨(i, some s), ?_, ?_⟩
  · have := enumFrom_mem (n := 0) h1
    simpa using this
  · simp [h2]

theorem mem_missingRecords {col : Column} {r : ViolationRecord}
    (h : r ∈ missingRecords col) :
    ∃ i c, col.cells[i]? = some c ∧ isMissingCell c = true ∧
      r = ⟨i + 2, col.name, "", "Missing value"⟩ := by
  rw [missingRecords, List.mem_map] at h
  obtain ⟨p, hp, hr⟩ := h
  rw [List.mem_filter] at hp
  refine ⟨p.1, p.2, ?_, hp.2, hr.symm⟩
  have := (mem_enumFrom hp.1).2
  simpa using this

theorem missingRecords_mem {col : Column} {i : Nat} {c : Cell}
    (h1 : col.cells[i]? = some c) (h2 : isMissingCell c = true) :
    (⟨i + 2, col.name, "", "Missing value"⟩ : ViolationRecord) ∈ missingRecords col := by
  rw [missingRecords, List.mem_map]
  refine ⟨(i, c), ?_, rfl⟩
  rw [List.mem_filter]
  have hmem := enumFrom_mem (n := 0) h1
  rw [Nat.zero_add] at hmem
  exact ⟨hmem, h2⟩

theorem pairwise_row_missingRecords (col : Column) :
    (missingRecords col).Pairwise (fun a b => a.row < b.row) := by
  rw [missingRecords, List.pairwise_map]
  have := (pairwise_enumFrom col.cells 0).filter (fun p => isMissingCell p.2)
  exact this.imp (by intro a b h; simpa using Nat.add_lt_add_right h 2)

theorem pairwise_fst_nonMissingPairs (cells : List Cell) :
    (nonMissingPairs cells).Pairwise (fun a b => a.1 < b.1) := by
  rw [nonMissingPairs, List.pairwise_filterMap]
  refine (pairwise_enumFrom cells 0).imp ?_
  intro a b hab q hq q' hq'
  match ha : a.2 with
  | none => rw [ha] at hq; simp at hq
  | some s =>
    match hb : b.2 with
    | none => rw [hb] at hq'; simp at hq'
    | some s' =>
      rw [ha] at hq; rw [hb] at hq'
      by_cases hma : isMissingCell (some s) = true
      · simp [hma] at hq
      · by_cases hmb : isMissingCell (some s') = true
        · simp [hmb] at hq'
        · simp only [hma, Bool.false_eq_true, if_false, Option.mem_def,
            Option.some.injEq] at hq
          simp only [hmb, Bool.false_eq_true, if_false, Option.mem_def,
            Option.some.injEq] at hq'
          subst hq; subst hq'
          exact hab

theorem pairwise_row_validateType (t : String) (pairs : List (Nat × String)) (colName : String)
    (hp : pairs.Pairwise (fun a b => a.1 < b.1)) :
    (validateType t pairs colName).Pairwise (fun a b => a.row < b.row) := by
  rw [validateType, List.pairwise_map]
  exact (hp.filter _).imp (by intro a b h; simpa using Nat.add_lt_add_right h 2)

theorem mem_validateType {t : String} {pairs : List (Nat × String)} {colName : String}
    {r : ViolationRecord} (h : r ∈ validateType t pairs colName) :
    ∃ q ∈ pairs, cellTypeInvalid t q.2 = true ∧
      r = ⟨q.1 + 2, colName, q.2, typeErrorMessage t⟩ := by
  rw [validateType, List.mem_map] at h
  obtain ⟨q, hq, hr⟩ := h
  rw [List.mem_filter] at hq
  exact ⟨q, hq.1, hq.2, hr.symm⟩

theorem column_of_validateColumnWith {f : Option String} {col : Column} {t : String}
    {r : ViolationRecord} (h : r ∈ validateColumnWith f col t) : r.column = col.name := by
  match f with
  | some cause =>
    simp only [validateColumnWith, List.mem_append, List.mem_map] at h
    rcases h with h | ⟨q, _, hr⟩
    · obtain ⟨i, c, _, _, hr⟩ := mem_missingRecords h
      rw [hr]
    · rw [← hr]
  | none =>
    simp only [validateColumnWith, List.mem_append] at h
    rcases h with h | h
    · obtain ⟨i, c, _, _, hr⟩ := mem_missingRecords h
      rw [hr]
    · obtain ⟨q, _, _, hr⟩ := mem_validateType h
      rw [hr]

theorem countOcc_cons_self (xs : List String) (x : String) :
    countOcc (x :: xs) x = countOcc xs x + 1 := by
  simp [countOcc, List.filter_cons]

theorem countOcc_cons_ne {k x : String} (xs : List String) (h : k ≠ x) :
    countOcc (x :: xs) k = countOcc xs k := by
  simp [countOcc, List.filter_cons, Ne.symm h]

theorem countOcc_filter_ne {k x : String} (xs : List String) (h : k ≠ x) :
    countOcc (xs.filter (fun y => y ≠ x)) k = countOcc xs k := by
  unfold countOcc
  rw [List.filter_filter]
  congr 1
  apply List.filter_congr
  intro y _
  by_cases hy : y = k
  · subst hy
    simp [h]
  · simp [hy]

theorem length_filter_ne_add_countOcc (xs : List String) (x : String) :
    (xs.filter (fun y => y ≠ x)).length + countOcc xs x = xs.length := by
  induction xs with
  | nil => simp [countOcc]
  | cons y ys ih =>
    simp at ih
    by_cases hy : y = x
    · subst hy
      rw [countOcc_cons_self]
      simp only [List.filter_cons, List.length_cons]
      simp only [ne_eq, not_true_eq_false]
      simp
      omega
    · rw [countOcc_cons_ne ys (Ne.symm hy)]
      simp only [List.filter_cons, List.length_cons]
      simp [hy]
      omega

theorem filter_swap (p q : String → Bool) (l : List String) :
    (l.filter q).filter p = (l.filter p).filter q := by
  rw [List.filter_filter, List.filter_filter]
  exact List.filter_congr (fun a _ => Bool.and_comm _ _)

theorem filter_firstOccs (p : String → Bool) (l : List String) :
    (firstOccs l).filter p = firstOccs (l.filter p) := by
  induction l with
  | nil => simp [firstOccs]
  | cons x xs ih =>
    by_cases hx : p x = true
    · calc (firstOccs (x :: xs)).filter p
          = (x :: (firstOccs xs).filter (fun y => y ≠ x)).filter p := by rw [firstOccs]
        _ = x :: ((firstOccs xs).filter (fun y => y ≠ x)).filter p := by
            rw [List.filter_cons, if_pos hx]
        _ = x :: ((firstOccs xs).filter p).filter (fun y => y ≠ x) := by
            rw [filter_swap]
        _ = x :: (firstOccs (xs.filter p)).filter (fun y => y ≠ x) := by rw [ih]
        _ = firstOccs (x :: xs.filter p) := by rw [firstOccs]
        _ = firstOccs ((x :: xs).filter p) := by rw [List.filter_cons, if_pos hx]
    · have hx' : p x = false := Bool.not_eq_true _ |>.mp hx
      calc (firstOccs (x :: xs)).filter p
          = (x :: (firstOccs xs).filter (fun y => y ≠ x)).filter p := by rw [firstOccs]
        _ = ((firstOccs xs).filter (fun y => y ≠ x)).filter p := by
            rw [List.filter_cons, if_neg (by simp [hx'])]
        _ = ((firstOccs xs).filter p).filter (fun y => y ≠ x) := by rw [filter_swap]
        _ = (firstOccs xs).filter p := by
            apply List.filter_eq_self.mpr
            intro y hy
            have hpy := (List.mem_filter.mp hy).2
            simp only [ne_eq, decide_eq_true_eq]
            intro hyx
            rw [hyx, hx'] at hpy
            exact Bool.false_ne_true hpy
        _ = firstOccs (xs.filter p) := ih
        _ = firstOccs ((x :: xs).filter p) := by rw [List.filter_cons, if_neg (by simp [hx'])]

theorem sumCounts_freqTable_aux : ∀ (n : Nat) (l : List String), l.length ≤ n →
    sumCounts (freqTable l) = l.length := by
  intro n
  induction n with
  | zero =>
    intro l hl
    have hnil : l = [] := List.eq_nil_of_length_eq_zero (Nat.le_zero.mp hl)
    subst hnil
    simp [freqTable, firstOccs, sumCounts]
  | succ n ih =>
    intro l hl
    match l with
    | [] => simp [freqTable, firstOccs, sumCounts]
    | x :: xs =>
      have hxs : (xs.filter (fun y => y ≠ x)).length ≤ n := by
        have h1 := List.length_filter_le (fun y => y ≠ x) xs
        have h2 : xs.length ≤ n := by
          rw [List.length_cons] at hl
          omega
        omega
      have IH := ih _ hxs
      rw [freqTable, firstOccs, List.map_cons]
      unfold sumCounts
      rw [List.map_cons, List.sum_cons, List.map_map]
      have hsnd : ((x, countOcc (x :: xs) x) : String × Nat).2 = countOcc (x :: xs) x := rfl
      rw [hsnd]
      have hmap : ((firstOccs xs).filter (fun y => y ≠ x)).map
            (Prod.snd ∘ fun k => (k, countOcc (x :: xs) k)) =
          ((firstOccs xs).filter (fun y => y ≠ x)).map
            (Prod.snd ∘ fun k => (k, countOcc (xs.filter (fun y => y ≠ x)) k)) := by
        apply List.map_congr_left
        intro k hk
        have hkx : k ≠ x := by
          have := (List.mem_filter.mp hk).2
          simpa using this
        simp only [Function.comp]
        rw [countOcc_cons_ne xs hkx, countOcc_filter_ne xs hkx]
      rw [hmap, filter_firstOccs]
      have IH' : ((firstOccs (xs.filter fun y => y ≠ x)).map
          (Prod.snd ∘ fun k => (k, countOcc (xs.filter fun y => y ≠ x) k))).sum =
          (xs.filter (fun y => y ≠ x)).length := by
        have := IH
        unfold sumCounts freqTable at this
        rw [List.map_map] at this
        exact this
      rw [IH', countOcc_cons_self]
      have hpart := length_filter_ne_add_countOcc xs x
      rw [List.length_cons]
      omega

theorem sumCounts_freqTable (l : List String) : sumCounts (freqTable l) = l.length :=
  sumCounts_freqTable_aux l.length l (Nat.le_refl _)

theorem argmaxFirst_eq_none {tbl : List (String × Nat)} :
    argmaxFirst tbl = none ↔ tbl = [] := by
  cases tbl with
  | nil => simp [argmaxFirst]
  | cons p rest =>
    simp only [argmaxFirst]
    cases argmaxFirst rest <;> simp

theorem argmaxFirst_spec : ∀ {tbl : List (String × Nat)} {m : String × Nat},
    argmaxFirst tbl = some m →
    ∃ l₁ l₂, tbl = l₁ ++ m :: l₂ ∧ (∀ p ∈ l₁, p.2 < m.2) ∧ (∀ p ∈ l₂, p.2 ≤ m.2) := by
  intro tbl
  induction tbl with
  | nil => intro m h; simp [argmaxFirst] at h
  | cons p rest ih =>
    intro m h
    simp only [argmaxFirst] at h
    match hrest : argmaxFirst rest with
    | none =>
      rw [hrest] at h
      simp only [Option.some.injEq] at h
      have hnil : rest = [] := argmaxFirst_eq_none.mp hrest
      subst hnil
      subst h
      exact ⟨[], [], rfl, by simp, by simp⟩
    | some q =>
      rw [hrest] at h
      simp only [Option.some.injEq] at h
      obtain ⟨r₁, r₂, hsplit, hlt, hle⟩ := ih hrest
      by_cases hpq : p.2 < q.2
      · rw [if_pos hpq] at h
        subst h
        refine ⟨p :: r₁, r₂, by rw [hsplit, List.cons_append], ?_, hle⟩
        intro a ha
        rcases List.mem_cons.mp ha with rfl | ha
        · exact hpq
        · exact hlt a ha
      · rw [if_neg hpq] at h
        subst h
        refine ⟨[], rest, rfl, by simp, ?_⟩
        intro a ha
        rw [hsplit] at ha
        rcases List.mem_append.mp ha with ha | ha
        · exact Nat.le_trans (Nat.le_of_lt (hlt a ha)) (Nat.le_of_not_lt hpq)
        · rcases List.mem_cons.mp ha with rfl | ha
          · exact Nat.le_of_not_lt hpq
          · exact Nat.le_trans (hle a ha) (Nat.le_of_not_lt hpq)

theorem sumCounts_summary (cells : List ViolationRecord) :
    sumCounts (summaryErrorTypes (generateValidationSummary cells)) = cells.length := by
  unfold generateValidationSummary
  by_cases h : cells.isEmpty
  · rw [if_pos h]
    have : cells = [] := List.isEmpty_iff.mp h
    subst this
    simp [summaryErrorTypes, sumCounts]
  · rw [if_neg h]
    unfold summaryErrorTypes
    rw [sumCounts_freqTable, List.length_map]

/-! The claims. -/

/-- C1: for every dataframe accepted by validate_dataframe, the returned
report satisfies invalid_count = length of invalid_cells, and
invalid_count equals the sum of the per-kind error counts in the
summary's error frequency table (the table being empty for a report with
zero violations). -/
theorem claim_C1_invalid_count_consistent (df : DataFrame) (et : Option ExpectedTypes) :
    (validate_dataframe df et).invalid_count = (validate_dataframe df et).invalid_cells.length ∧
    (validate_dataframe df et).invalid_count =
      sumCounts (summaryErrorTypes (validate_dataframe df et).validation_summary) :=
  ⟨rfl, (sumCounts_summary _).symm⟩

/-- C10: when the caller supplies expected_types, a column whose name is
absent from the mapping contributes no violation record at all, while it
is still counted in total_columns. -/
theorem claim_C10_unknown_columns_skipped (df : DataFrame) (et : ExpectedTypes)
    (c : String) (hc : lookupType et c = none) :
    (∀ r ∈ (validate_dataframe df (some et)).invalid_cells, r.column ≠ c) ∧
    (validate_dataframe df (some et)).total_columns = df.length := by
  refine ⟨?_, rfl⟩
  intro r hr
  simp only [validate_dataframe, validateDataframeWith, List.mem_flatMap] at hr
  obtain ⟨col, hcol, hrcol⟩ := hr
  match hl : lookupType et col.name with
  | none => rw [hl] at hrcol; simp at hrcol
  | some t =>
    rw [hl] at hrcol
    have hcn := column_of_validateColumnWith hrcol
    intro hrc
    rw [hrc] at hcn
    rw [hcn] at hc
    rw [hl] at hc
    exact Option.noConfusion hc

/-- C5 counterexample: on a single column whose first cell is a type
violation (row 2) and whose second cell is missing (row 3), the report
lists row 3 before row 2, so invalid_cells is not in ascending row order
within the column. -/
theorem claim_C5_counterexample :
    ((validate_dataframe [⟨"c", [some "abc", none]⟩] (some [("c", "integer")])).invalid_cells.map
        (fun r => r.row) = [3, 2]) ∧
    ¬ ((validate_dataframe [⟨"c", [some "abc", none]⟩]
        (some [("c", "integer")])).invalid_cells.Pairwise (fun a b => a.row < b.row)) := by
  constructor
  · decide
  · decide

/-- C5 amended: invalid_cells is the concatenation of per-column blocks in
column iteration order, and within one column all MissingValue records
come first in ascending row order, followed by all type-violation records
in ascending row order (the two groups are not interleaved by row). -/
theorem claim_C5_order (df : DataFrame) (et : ExpectedTypes) (col : Column) (t : String) :
    ((validate_dataframe df (some et)).invalid_cells = df.flatMap (fun c =>
        match lookupType et c.name with
        | none => []
        | some ty => validateColumnWith none c ty)) ∧
    (validateColumnWith none col t =
      missingRecords col ++ validateType t (nonMissingPairs col.cells) col.name) ∧
    (missingRecords col).Pairwise (fun a b => a.row < b.row) ∧
    (validateType t (nonMissingPairs col.cells) col.name).Pairwise (fun a b => a.row < b.row) ∧
    ((missingRecords col).all (fun r => r.error == "Missing value") = true) := by
  refine ⟨rfl, rfl, pairwise_row_missingRecords col,
    pairwise_row_validateType t _ col.name (pairwise_fst_nonMissingPairs col.cells), ?_⟩
  rw [List.all_eq_true]
  intro r hr
  obtain ⟨i, c, _, _, hreq⟩ := mem_missingRecords hr
  rw [hreq]
  rfl

/-- C6: every violation record of a column reports row = the cell's
0-based position in the column plus 2; the witnessing cell is missing for
a MissingValue record and carries the rendered value otherwise, so the
first data row is reported as row 2. -/
theorem claim_C6_row_offset (col : Column) (t : String) (r : ViolationRecord)
    (h : r ∈ validateColumnWith none col t) :
    ∃ i c, col.cells[i]? = some c ∧ r.row = i + 2 ∧
      ((isMissingCell c = true ∧ r.value = "" ∧ r.error = "Missing value") ∨
        (c = some r.value ∧ isMissingCell c = false)) := by
  simp only [validateColumnWith, List.mem_append] at h
  rcases h with h | h
  · obtain ⟨i, c, hic, hm, hreq⟩ := mem_missingRecords h
    exact ⟨i, c, hic, by rw [hreq], Or.inl ⟨hm, by rw [hreq], by rw [hreq]⟩⟩
  · obtain ⟨q, hq, hinv, hreq⟩ := mem_validateType h
    obtain ⟨hic, hnm⟩ := mem_nonMissingPairs hq
    exact ⟨q.1, some q.2, hic, by rw [hreq], Or.inr ⟨by rw [hreq], hnm⟩⟩

/-- C6 witness: the record the validator emits for the corrupt first data
cell of a one-cell integer column reports row 2. -/
theorem claim_C6_witness :
    ∃ i c, ([some "abc"] : List Cell)[i]? = some c ∧
      (⟨2, "c", "abc", "Expected integer"⟩ : ViolationRecord).row = i + 2 ∧
      ((isMissingCell c = true ∧
          (⟨2, "c", "abc", "Expected integer"⟩ : ViolationRecord).value = "" ∧
          (⟨2, "c", "abc", "Expected integer"⟩ : ViolationRecord).error = "Missing value") ∨
        (c = some (⟨2, "c", "abc", "Expected integer"⟩ : ViolationRecord).value ∧
          isMissingCell c = false)) :=
  claim_C6_row_offset ⟨"c", [some "abc"]⟩ "integer" ⟨2, "c", "abc", "Expected integer"⟩
    (by decide)

/-- C7: a cell containing only whitespace yields a MissingValue record
with empty rendered value, and for its row no other record is emitted —
in particular no type-specific record, the cell being excluded from the
type check — whatever the column's expected type. -/
theorem claim_C7_whitespace_is_missing (col : Column) (t : String) (i : Nat) (s : String)
    (hc : col.cells[i]? = some (some s)) (hw : ∀ ch ∈ s.toList, ch.isWhitespace = true) :
    ((⟨i + 2, col.name, "", "Missing value"⟩ : ViolationRecord) ∈
      validateColumnWith none col t) ∧
    (∀ r ∈ validateColumnWith none col t, r.row = i + 2 →
      r = ⟨i + 2, col.name, "", "Missing value"⟩) := by
  have hdrop : List.dropWhile Char.isWhitespace s.data = [] :=
    List.dropWhile_eq_nil_iff.mpr hw
  have hm : isMissingCell (some s) = true := by
    simp [isMissingCell, trimChars, hdrop]
  refine ⟨?_, ?_⟩
  · simp only [validateColumnWith, List.mem_append]
    exact Or.inl (missingRecords_mem hc hm)
  · intro r hr hrow
    simp only [validateColumnWith, List.mem_append] at hr
    rcases hr with hr | hr
    · obtain ⟨j, cj, hjc, hjm, hreq⟩ := mem_missingRecords hr
      have hji : j = i := by
        rw [hreq] at hrow
        simpa using hrow
      subst hji
      exact hreq
    · obtain ⟨q, hq, hinv, hreq⟩ := mem_validateType hr
      obtain ⟨hqc, hqm⟩ := mem_nonMissingPairs hq
      have hqi : q.1 = i := by
        rw [hreq] at hrow
        simpa using hrow
      rw [hqi, hc] at hqc
      simp only [Option.some.injEq] at hqc
      rw [← hqc] at hqm
      rw [hm] at hqm
      exact Bool.noConfusion hqm

/-- C7 witness: a whitespace-only cell of an integer column is reported
exactly once, as the MissingValue record of row 2. -/
theorem claim_C7_witness :
    ((⟨2, "c", "", "Missing value"⟩ : ViolationRecord) ∈
      validateColumnWith none ⟨"c", [some "   "]⟩ "integer") ∧
    (∀ r ∈ validateColumnWith none ⟨"c", [some "   "]⟩ "integer", r.row = 2 →
      r = ⟨2, "c", "", "Missing value"⟩) :=
  claim_C7_whitespace_is_missing ⟨"c", [some "   "]⟩ "integer" 0 "   " (by decide)
    (by decide)

/-- C3: on a nonempty string column the inferrer works on at most the
first 1000 non-missing values, checks the date heuristic first (at least
60 percent matches give date_string regardless of the numeric test), then
the numeric heuristic (at least 80 percent of the comma-and-space-stripped
sample casting to a number gives numeric_string), and the result depends
only on that bounded sample. -/
theorem claim_C3_heuristic_precedence (cells : List Cell)
    (hne : cells.filterMap id ≠ []) :
    (10 * (((cells.filterMap id).take 1000).filter isDateString).length ≥
        ((cells.filterMap id).take 1000).length * 6 →
      inferStringTypeVectorized cells = "date_string") ∧
    (10 * (((cells.filterMap id).take 1000).filter isDateString).length <
        ((cells.filterMap id).take 1000).length * 6 →
      10 * ((((cells.filterMap id).take 1000).map stripFormatting).filter
          (fun s => isFloatChars s.toList)).length ≥
        ((cells.filterMap id).take 1000).length * 8 →
      inferStringTypeVectorized cells = "numeric_string") ∧
    (10 * (((cells.filterMap id).take 1000).filter isDateString).length <
        ((cells.filterMap id).take 1000).length * 6 →
      10 * ((((cells.filterMap id).take 1000).map stripFormatting).filter
          (fun s => isFloatChars s.toList)).length <
        ((cells.filterMap id).take 1000).length * 8 →
      inferStringTypeVectorized cells = "text") ∧
    (∀ cells₂ : List Cell,
      (cells₂.filterMap id).take 1000 = (cells.filterMap id).take 1000 →
      inferStringTypeVectorized cells₂ = inferStringTypeVectorized cells) := by
  have he : (cells.filterMap id).isEmpty = false := List.isEmpty_eq_false.mpr hne
  refine ⟨?_, ?_, ?_, ?_⟩
  · intro h1
    simp only [inferStringTypeVectorized, he, Bool.false_eq_true, if_false]
    rw [if_pos h1]
  · intro h1 h2
    simp only [inferStringTypeVectorized, he, Bool.false_eq_true, if_false]
    rw [if_neg (by omega), if_pos h2]
  · intro h1 h2
    simp only [inferStringTypeVectorized, he, Bool.false_eq_true, if_false]
    rw [if_neg (by omega), if_neg (by omega)]
  · intro cells₂ hsam
    have hne₂ : cells₂.filterMap id ≠ [] := by
      intro h0
      rw [h0] at hsam
      rcases List.take_eq_nil_iff.mp hsam.symm with h | h
      · exact Nat.noConfusion h
      · exact hne h
    have he₂ : (cells₂.filterMap id).isEmpty = false := List.isEmpty_eq_false.mpr hne₂
    simp only [inferStringTypeVectorized, he, he₂, Bool.false_eq_true, if_false]
    rw [hsam]

/-- C3 witness: a two-thirds date-matching sample is classified
date_string even though zero percent of it parses numerically. -/
theorem claim_C3_witness :
    inferStringTypeVectorized [some "2023-01-01", some "2023-02-15", some "not-a-date"] =
      "date_string" :=
  (claim_C3_heuristic_precedence [some "2023-01-01", some "2023-02-15", some "not-a-date"]
    (by decide)).1 (by decide)

/-- C2 counterexample: a column of eleven copies of "abc" fails the date
heuristic (0 percent) and the numeric heuristic (0 percent), has one
distinct value among eleven non-null values (ratio below 0.1 and count
below 50), yet the type inferrer that runs the heuristics classifies it
"text", not "categorical". -/
theorem claim_C2_counterexample :
    (10 * nUnique (List.replicate 11 (some "abc")) <
        ((List.replicate 11 (some ("abc" : String))).filterMap id).length ∧
      nUnique (List.replicate 11 (some "abc")) < 50 ∧
      10 * ((((List.replicate 11 (some ("abc" : String))).filterMap id).take 1000).filter
          isDateString).length <
        (((List.replicate 11 (some ("abc" : String))).filterMap id).take 1000).length * 6 ∧
      10 * (((((List.replicate 11 (some ("abc" : String))).filterMap id).take 1000).map
            stripFormatting).filter (fun s => isFloatChars s.toList)).length <
        (((List.replicate 11 (some ("abc" : String))).filterMap id).take 1000).length * 8) ∧
    inferStringTypeVectorized (List.replicate 11 (some "abc")) ≠ "categorical" := by
  refine ⟨by decide, by decide⟩

/-- C2 amended: the validator's string-type inferrer never returns
categorical (when both heuristics fail it returns text); the categorical
classification under the thresholds — fewer distinct values than a tenth
of the sampled length and fewer than 50 — is performed by
analyze_csv_metadata's type detection, which applies it to every
string-storage column without evaluating the date or numeric
heuristics. -/
theorem claim_C2_categorical_location :
    (∀ cells : List Cell, inferStringTypeVectorized cells ≠ "categorical") ∧
    (∀ cells : List Cell, 10 * nUnique cells < cells.length → nUnique cells < 50 →
      analyzerInferStringType cells = "categorical") := by
  constructor
  · intro cells
    simp only [inferStringTypeVectorized]
    split_ifs <;> decide
  · intro cells h1 h2
    unfold analyzerInferStringType
    rw [if_pos ⟨h1, h2⟩]

/-- C2 witness: a low-cardinality string column is classified categorical
by the analyzer's detection. -/
theorem claim_C2_witness :
    analyzerInferStringType (List.replicate 11 (some "x")) = "categorical" :=
  claim_C2_categorical_location.2 (List.replicate 11 (some "x")) (by decide) (by decide)

/-- C10 witness: with expected_types naming only column b, column a of a
one-column dataframe yields no record and is still counted. -/
theorem claim_C10_witness :
    (∀ r ∈ (validate_dataframe [⟨"a", [some "zz"]⟩] (some [("b", "integer")])).invalid_cells,
      r.column ≠ "a") ∧
    (validate_dataframe [⟨"a", [some "zz"]⟩]
      (some [("b", "integer")])).total_columns = 1 :=
  claim_C10_unknown_columns_skipped [⟨"a", [some "zz"]⟩] [("b", "integer")] "a" (by decide)

theorem validateColumnWith_filter_ne {b : String} (f : Option String) (c : Column)
    (t : String) (hb : c.name = b) :
    (validateColumnWith f c t).filter (fun r => r.column ≠ b) = [] := by
  rw [List.filter_eq_nil_iff]
  intro r hr
  have hcn := column_of_validateColumnWith hr
  simp [hcn, hb]

theorem flatMap_filter_ne_oracle (b cause : String) (et : ExpectedTypes) :
    ∀ df : DataFrame,
      ((df.flatMap (fun c =>
        match lookupType et c.name with
        | none => []
        | some t => validateColumnWith (if c.name = b then some cause else none) c t)).filter
          (fun r => r.column ≠ b)) =
      ((df.flatMap (fun c =>
        match lookupType et c.name with
        | none => []
        | some t => validateColumnWith none c t)).filter (fun r => r.column ≠ b)) := by
  intro df
  induction df with
  | nil => rfl
  | cons c cs ih =>
    rw [List.flatMap_cons, List.flatMap_cons, List.filter_append, List.filter_append, ih]
    congr 1
    match hl : lookupType et c.name with
    | none => rfl
    | some t =>
      by_cases hb : c.name = b
      · rw [if_pos hb, validateColumnWith_filter_ne _ c t hb,
          validateColumnWith_filter_ne _ c t hb]
      · rw [if_neg hb]

/-- C4: when the vectorized type-check step raises for a whole column
(modelled by the engine-failure oracle firing on that column's name),
every non-missing cell of the column is reported with the generic
"Validation error: cause" message, and the records of all other columns
are exactly those of the failure-free run. -/
theorem claim_C4_engine_failure (df : DataFrame) (et : ExpectedTypes) (b cause : String)
    (col : Column) (t : String) (hcol : col ∈ df) (hname : col.name = b)
    (ht : lookupType et col.name = some t) :
    (∀ q ∈ nonMissingPairs col.cells,
      (⟨q.1 + 2, col.name, q.2, "Validation error: " ++ cause⟩ : ViolationRecord) ∈
        (validateDataframeWith (fun n => if n = b then some cause else none) df
          (some et)).invalid_cells) ∧
    ((validateDataframeWith (fun n => if n = b then some cause else none) df
        (some et)).invalid_cells.filter (fun r => r.column ≠ b) =
      (validate_dataframe df (some et)).invalid_cells.filter (fun r => r.column ≠ b)) := by
  constructor
  · intro q hq
    simp only [validateDataframeWith, List.mem_flatMap]
    refine ⟨col, hcol, ?_⟩
    rw [ht, if_pos hname]
    simp only [validateColumnWith, List.mem_append, List.mem_map]
    exact Or.inr ⟨q, hq, rfl⟩
  · exact flatMap_filter_ne_oracle b cause et df

/-- C4 witness: with the oracle failing on column a of a two-column
dataframe, the non-missing cell of a is marked with the generic message
while column c keeps its normal violation. -/
theorem claim_C4_witness :
    ((⟨2, "a", "x", "Validation error: boom"⟩ : ViolationRecord) ∈
      (validateDataframeWith (fun n => if n = "a" then some "boom" else none)
        [⟨"a", [some "x"]⟩, ⟨"c", [some "abc"]⟩]
        (some [("a", "integer"), ("c", "integer")])).invalid_cells) ∧
    ((validateDataframeWith (fun n => if n = "a" then some "boom" else none)
        [⟨"a", [some "x"]⟩, ⟨"c", [some "abc"]⟩]
        (some [("a", "integer"), ("c", "integer")])).invalid_cells.filter
        (fun r => r.column ≠ "a") =
      (validate_dataframe [⟨"a", [some "x"]⟩, ⟨"c", [some "abc"]⟩]
        (some [("a", "integer"), ("c", "integer")])).invalid_cells.filter
        (fun r => r.column ≠ "a")) :=
  ⟨(claim_C4_engine_failure [⟨"a", [some "x"]⟩, ⟨"c", [some "abc"]⟩]
      [("a", "integer"), ("c", "integer")] "a" "boom" ⟨"a", [some "x"]⟩ "integer"
      (by decide) rfl rfl).1 (0, "x") (by decide),
   (claim_C4_engine_failure [⟨"a", [some "x"]⟩, ⟨"c", [some "abc"]⟩]
      [("a", "integer"), ("c", "integer")] "a" "boom" ⟨"a", [some "x"]⟩ "integer"
      (by decide) rfl rfl).2⟩

theorem freqTable_map_error_ne_nil {cells : List ViolationRecord} (h : cells ≠ []) :
    freqTable (cells.map (fun c => c.error)) ≠ [] := by
  match cells with
  | [] => exact absurd rfl h
  | c :: cs => simp [freqTable, firstOccs]

/-- C8: validation is a pure function of the parsed file contents and the
expected types, so two runs on the same unchanged input yield identical
reports; and most_common_error is the key of the first entry of the error
frequency table (whose keys are in first-encounter order) achieving the
maximal count, so ties go to the first-encountered error kind. -/
theorem claim_C8_deterministic :
    (∀ (p : String) (parsed : Except String DataFrame) (et : Option ExpectedTypes),
      validate_csv_file p parsed et = validate_csv_file p parsed et) ∧
    (∀ cells : List ViolationRecord, cells ≠ [] →
      ∃ m l₁ l₂,
        generateValidationSummary cells =
          .invalid cells.length (freqTable (cells.map (fun c => c.error)))
            (freqTable (cells.map (fun c => c.column))) (some m.1) ∧
        freqTable (cells.map (fun c => c.error)) = l₁ ++ m :: l₂ ∧
        (∀ q ∈ l₁, q.2 < m.2) ∧ (∀ q ∈ l₂, q.2 ≤ m.2)) := by
  refine ⟨fun _ _ _ => rfl, ?_⟩
  intro cells hne
  have hempty : cells.isEmpty = false := List.isEmpty_eq_false.mpr hne
  have htbl : freqTable (cells.map (fun c => c.error)) ≠ [] :=
    freqTable_map_error_ne_nil hne
  match hm : argmaxFirst (freqTable (cells.map (fun c => c.error))) with
  | none => exact absurd (argmaxFirst_eq_none.mp hm) htbl
  | some m =>
    obtain ⟨l₁, l₂, hsplit, hlt, hle⟩ := argmaxFirst_spec hm
    refine ⟨m, l₁, l₂, ?_, hsplit, hlt, hle⟩
    simp only [generateValidationSummary, hempty, Bool.false_eq_true, if_false]
    rw [hm]
    rfl

/-- C8 witness: on a concrete one-record cell list the summary carries the
promised shape and the frequency-table split exists. -/
theorem claim_C8_witness :
    ∃ m l₁ l₂,
      generateValidationSummary [⟨2, "c", "x", "E1"⟩] =
        .invalid ([(⟨2, "c", "x", "E1"⟩ : ViolationRecord)] : List ViolationRecord).length
          (freqTable (([(⟨2, "c", "x", "E1"⟩ : ViolationRecord)] :
            List ViolationRecord).map (fun c => c.error)))
          (freqTable (([(⟨2, "c", "x", "E1"⟩ : ViolationRecord)] :
            List ViolationRecord).map (fun c => c.column))) (some m.1) ∧
      freqTable (([(⟨2, "c", "x", "E1"⟩ : ViolationRecord)] :
          List ViolationRecord).map (fun c => c.error)) = l₁ ++ m :: l₂ ∧
      (∀ q ∈ l₁, q.2 < m.2) ∧ (∀ q ∈ l₂, q.2 ≤ m.2) :=
  claim_C8_deterministic.2 [⟨2, "c", "x", "E1"⟩] (by decide)

/-- C9: analyze_csv_metadata returns exactly one entry per requested path,
in order; a path whose read or parse fails yields the captured error entry
(basename, path, message) with no metadata fields; a successfully parsed
file yields its full metadata entry; and the entry of one path depends
only on the read outcome of that path, so one file's failure cannot
affect any sibling entry. -/
theorem claim_C9_per_file_isolation (readCsv : String → Except String ParsedCsv)
    (paths : List String) :
    ((analyze_csv_metadata readCsv paths).length = paths.length) ∧
    (∀ (i : Nat) (hi : i < paths.length) (e : String), readCsv paths[i] = .error e →
      (analyze_csv_metadata readCsv paths)[i]? =
        some (.err (basename paths[i]) paths[i] e)) ∧
    (∀ (i : Nat) (hi : i < paths.length) (f : ParsedCsv), readCsv paths[i] = .ok f →
      ¬(f.sampleDf ≠ [] ∧ dfHeight f.sampleDf = 0) →
      (analyze_csv_metadata readCsv paths)[i]? =
        some (.ok (fileMetadataOf paths[i] f))) ∧
    (∀ (read₂ : String → Except String ParsedCsv) (i : Nat) (hi : i < paths.length),
      read₂ paths[i] = readCsv paths[i] →
      (analyze_csv_metadata read₂ paths)[i]? = (analyze_csv_metadata readCsv paths)[i]?) := by
  refine ⟨by simp [analyze_csv_metadata], ?_, ?_, ?_⟩
  · intro i hi e h
    unfold analyze_csv_metadata
    rw [List.getElem?_map, List.getElem?_eq_getElem hi]
    simp only [Option.map_some']
    rw [h]
  · intro i hi f h hok
    unfold analyze_csv_metadata
    rw [List.getElem?_map, List.getElem?_eq_getElem hi]
    simp only [Option.map_some']
    rw [h]
    simp [hok]
  · intro read₂ i hi h
    unfold analyze_csv_metadata
    rw [List.getElem?_map, List.getElem?_map, List.getElem?_eq_getElem hi]
    simp only [Option.map_some']
    rw [h]

/-- C9 witness: a batch whose only file fails to read yields exactly the
captured error entry. -/
theorem claim_C9_witness :
    (analyze_csv_metadata (fun _ => .error "boom") ["data/bad.csv"])[0]? =
      some (.err (basename "data/bad.csv") "data/bad.csv" "boom") :=
  (claim_C9_per_file_isolation (fun _ => .error "boom") ["data/bad.csv"]).2.1 0
    (by decide) "boom" rfl

end CsvEngine
